import Mathlib

/-!
Verification of the user-management core of `clean-angular-app`.

The development shallowly embeds the domain layer of the repository:
the `User` entity (`src/core/domain/entities/user.entity.ts`), the
domain error taxonomy (`src/core/domain/errors/domain-errors.ts`) and
the five use cases (create / get / update / delete / list-search).

Modelling conventions:
* JavaScript strings are Lean `String`s; character-level operations
  (`trim`, the regex tests) work on `String.data : List Char`.
* A JavaScript `Date` is `Nat`: milliseconds since the Unix epoch.
  (`Date` values produced by `Date.now()` or by parsing server
  timestamps are non-negative in this application.)
* Thrown values are `Thrown`: either a bare `new Error(message)`
  (`Thrown.plain`) or an instance of a `DomainError` subclass
  (`Thrown.domain`).
* An rxjs pipeline of a use case is evaluated against a `RepoBehavior`
  record that gives the repository's response to every operation.  The
  result is an `Outcome`: a synchronous throw (raised while the use
  case method runs, before any repository interaction), or an error or
  value emitted by the observable together with the ordered list of
  repository calls that were made.
-/

namespace CleanAngular

/-! ## JavaScript string primitives -/

/-- The character class `\s` of JavaScript regular expressions, which is
also the set of characters removed by `String.prototype.trim`. -/
def jsWhitespace (c : Char) : Bool :=
  c = ' ' || c = '\t' || c = '\n' || c = '\r' || c.toNat = 11 || c.toNat = 12 ||
  c.toNat = 0xa0 || c.toNat = 0x1680 || (0x2000 ≤ c.toNat && c.toNat ≤ 0x200a) ||
  c.toNat = 0x2028 || c.toNat = 0x2029 || c.toNat = 0x202f || c.toNat = 0x205f ||
  c.toNat = 0x3000 || c.toNat = 0xfeff

/-- `String.prototype.trim`: strip `\s` characters from both ends. -/
def jsTrim (s : List Char) : List Char :=
  ((s.dropWhile jsWhitespace).reverse.dropWhile jsWhitespace).reverse

/-- Length of the trimmed form of a string, i.e. `s.trim().length`. -/
def trimLen (s : String) : Nat := (jsTrim s.data).length

/-- A character admitted by the class `[^\s@]`. -/
def isEmailChar (c : Char) : Bool := !(jsWhitespace c) && c ≠ '@'

/-- Test of the email regex `^[^\s@]+@[^\s@]+\.[^\s@]+$` (used by the
entity constructor, the create use case and the get-by-email entry
point).  A string matches exactly when it splits as
`local ++ "@" ++ rest` with `local` nonempty and free of `\s`/`@`,
`rest` free of `\s`/`@`, and `rest` containing a dot that is neither
its first nor its last character (so that both `[^\s@]+` groups around
the dot are nonempty). -/
def emailRegexTest (s : List Char) : Bool :=
  let locPart := s.takeWhile (fun c => c ≠ '@')
  match s.drop locPart.length with
  | [] => false
  | _ :: rest =>
      !locPart.isEmpty && locPart.all isEmailChar && rest.all isEmailChar &&
        (rest.drop 1).dropLast.contains '.'

/-- Test of the name regex `^[a-zA-Z\s]+$` used by the create and
update use cases. -/
def isAsciiLetter (c : Char) : Bool :=
  ('a' ≤ c && c ≤ 'z') || ('A' ≤ c && c ≤ 'Z')

/-- A string matches `^[a-zA-Z\s]+$` iff it is nonempty and all its
characters are ASCII letters or `\s` characters. -/
def nameRegexTest (s : List Char) : Bool :=
  !s.isEmpty && s.all (fun c => isAsciiLetter c || jsWhitespace c)

/-! ## The domain error taxonomy (`domain-errors.ts`) -/

/-- The concrete subclasses of the abstract `DomainError` class, with
the per-subclass constructor arguments. -/
inductive DomainError
  | userNotFound (userId : String)
  | userAlreadyExists (email : String)
  | invalidUserData (message : String) (validationErrors : Option (List String))
  | userInactive (userId : String)
  | validation (message : String) (validationErrors : List String)
  | businessRuleViolation (message : String) (rule : String)
  | repositoryError (message : String) (operation : String)
  | networkError (message : String)
deriving DecidableEq

/-- The per-subclass readonly `code` field. -/
def DomainError.code : DomainError → String
  | .userNotFound _ => "USER_NOT_FOUND"
  | .userAlreadyExists _ => "USER_ALREADY_EXISTS"
  | .invalidUserData _ _ => "INVALID_USER_DATA"
  | .userInactive _ => "USER_INACTIVE"
  | .validation _ _ => "VALIDATION_ERROR"
  | .businessRuleViolation _ _ => "BUSINESS_RULE_VIOLATION"
  | .repositoryError _ _ => "REPOSITORY_ERROR"
  | .networkError _ => "NETWORK_ERROR"

/-- The per-subclass readonly `userMessage` field. -/
def DomainError.userMessage : DomainError → String
  | .userNotFound _ => "User not found"
  | .userAlreadyExists _ => "A user with this email already exists"
  | .invalidUserData _ _ => "Invalid user data provided"
  | .userInactive _ => "Cannot perform operation on inactive user"
  | .validation _ _ => "Validation failed"
  | .businessRuleViolation _ _ => "Business rule violation"
  | .repositoryError _ _ => "Data access error occurred"
  | .networkError _ => "Network connection error"

/-- The inherited `Error.message` set by each constructor. -/
def DomainError.message : DomainError → String
  | .userNotFound userId => "User with ID " ++ userId ++ " not found"
  | .userAlreadyExists email => "User with email " ++ email ++ " already exists"
  | .invalidUserData m _ => m
  | .userInactive userId => "User " ++ userId ++ " is inactive"
  | .validation m _ => m
  | .businessRuleViolation m _ => m
  | .repositoryError m _ => m
  | .networkError m => m

/-- A thrown JavaScript value in this code base: a bare
`new Error(message)` or a `DomainError` instance. -/
inductive Thrown
  | plain (message : String)
  | domain (e : DomainError)
deriving DecidableEq

/-- Whether a thrown value is an instance of a `DomainError`
subclass. -/
def Thrown.isDomainError : Thrown → Bool
  | .plain _ => false
  | .domain _ => true

/-- Shape of the `error` payload carried by an Angular `HttpErrorResponse`,
as read by `DomainErrorFactory.fromHttpError`. -/
structure HttpErrorBody where
  email : Option String
  message : Option String
  errors : Option (List String)
deriving DecidableEq

/-- The fields of an HTTP error object that `fromHttpError` reads. -/
structure HttpError where
  status : Option Int
  url : Option String
  message : Option String
  error : Option HttpErrorBody
deriving DecidableEq

/-- `x || 'unknown'` on an optional string (the empty string is falsy). -/
def orUnknown : Option String → String
  | none => "unknown"
  | some s => if s = "" then "unknown" else s

/-- `DomainErrorFactory.fromHttpError`: the fixed mapping from transport
failures to typed domain errors. -/
def DomainErrorFactory.fromHttpError (h : HttpError) : DomainError :=
  if h.status = some 404 then
    .userNotFound (orUnknown h.url)
  else if h.status = some 409 then
    .userAlreadyExists (orUnknown (h.error.bind (fun b => b.email)))
  else if h.status = some 400 then
    .invalidUserData "Validation failed"
      (some ((h.error.bind (fun b => b.errors)).getD
        [match h.error.bind (fun b => b.message) with
         | some m => if m = "" then "Invalid data" else m
         | none => "Invalid data"]))
  else if h.status = some 0 then
    .networkError "Network connection failed"
  else
    .repositoryError
      (match h.message with
       | some m => if m = "" then "Repository operation failed" else m
       | none => "Repository operation failed")
      (orUnknown h.url)

/-- `DomainErrorFactory.fromValidationErrors`. -/
def DomainErrorFactory.fromValidationErrors (errors : List String) : DomainError :=
  .validation "Validation failed" errors

/-- `DomainErrorFactory.businessRuleViolation`. -/
def DomainErrorFactory.businessRuleViolation (message rule : String) : DomainError :=
  .businessRuleViolation message rule

/-! ## The platform ISO-8601 timestamp codec

Modelled from the spec: the repository's `toJSON`/`fromJSON` delegate
timestamp encoding to the JavaScript platform
(`Date.prototype.toISOString` and `new Date(isoString)`), whose source
is not part of this repository.  The spec requires "encoding timestamps
as ISO-8601 strings" with a millisecond-exact round trip, so the
proleptic Gregorian encode/decode pair is implemented here in full:
`toISOString` renders `YYYY-MM-DDTHH:MM:SS.mmmZ` (with more year digits
when the year exceeds 9999) and `parseISODate` reads it back.  All
recursions are structural (on an explicit fuel bound) so both
directions evaluate inside the kernel. -/

/-- Leap year predicate of the Gregorian calendar. -/
def isLeap (y : Nat) : Bool := (y % 4 == 0 && y % 100 != 0) || y % 400 == 0

/-- Number of days in year `y`. -/
def daysInYear (y : Nat) : Nat := if isLeap y then 366 else 365

/-- The twelve month lengths of a (leap or common) year. -/
def monthLengths (leap : Bool) : List Nat :=
  [31, if leap then 29 else 28, 31, 30, 31, 30, 31, 31, 30, 31, 30, 31]

/-- Total days in the `n` consecutive years starting with year `y`. -/
def spanDays (y : Nat) : Nat → Nat
  | 0 => 0
  | n + 1 => daysInYear y + spanDays (y + 1) n

/-- Days from the epoch (1970-01-01) to January 1 of year `y ≥ 1970`. -/
def yearStart (y : Nat) : Nat := spanDays 1970 (y - 1970)

/-- Split a day count from January 1 of year `y` into (year, day of
year); `fuel` bounds the recursion (any `fuel ≥ d` is enough since a
year has at least 365 days). -/
def yearSplitAux : Nat → Nat → Nat → Nat × Nat
  | 0, y, d => (y, d)
  | fuel + 1, y, d =>
      if d < daysInYear y then (y, d) else yearSplitAux fuel (y + 1) (d - daysInYear y)

/-- Split a day count since the epoch into (year, day of year). -/
def yearSplit (d : Nat) : Nat × Nat := yearSplitAux d 1970 d

/-- Split a day-of-year across a list of month lengths into
(1-based month index offset by the accumulator, 1-based day of month). -/
def monthSplit : Nat → List Nat → Nat → Nat × Nat
  | m, [], doy => (m, doy + 1)
  | m, len :: rest, doy =>
      if doy < len then (m, doy + 1) else monthSplit (m + 1) rest (doy - len)

/-- Year of a day count since the epoch. -/
def civilYear (d : Nat) : Nat := (yearSplit d).1

/-- Day of year (0-based) of a day count since the epoch. -/
def civilDoy (d : Nat) : Nat := (yearSplit d).2

/-- Month (1-12) of a day count since the epoch. -/
def civilMonth (d : Nat) : Nat :=
  (monthSplit 1 (monthLengths (isLeap (civilYear d))) (civilDoy d)).1

/-- Day of month (1-31) of a day count since the epoch. -/
def civilDom (d : Nat) : Nat :=
  (monthSplit 1 (monthLengths (isLeap (civilYear d))) (civilDoy d)).2

/-- Day count since the epoch of a calendar date `y ≥ 1970`, `m`, `d`. -/
def daysFromCivil (y m d : Nat) : Nat :=
  yearStart y + ((monthLengths (isLeap y)).take (m - 1)).sum + (d - 1)

/-- The decimal digit character of `n < 10`. -/
def digitChar : Nat → Char
  | 0 => '0'
  | 1 => '1'
  | 2 => '2'
  | 3 => '3'
  | 4 => '4'
  | 5 => '5'
  | 6 => '6'
  | 7 => '7'
  | 8 => '8'
  | 9 => '9'
  | _ => '?'

/-- Decimal rendering of `n` in front of `acc`; structural on `fuel`,
correct whenever `n ≤ fuel`. -/
def natCharsAux : Nat → Nat → List Char → List Char
  | 0, n, acc => digitChar n :: acc
  | fuel + 1, n, acc =>
      if n < 10 then digitChar n :: acc
      else natCharsAux fuel (n / 10) (digitChar (n % 10) :: acc)

/-- Decimal rendering of `n` (no leading zeros). -/
def natChars (n : Nat) : List Char := natCharsAux n n []

/-- `Date.prototype.toISOString` on a millisecond timestamp, as a
character list: `YYYY-MM-DDTHH:MM:SS.mmmZ`. -/
def toISOChars (t : Nat) : List Char :=
  let days := t / 86400000
  natChars (civilYear days) ++
    [ '-', digitChar (civilMonth days / 10 % 10), digitChar (civilMonth days % 10),
      '-', digitChar (civilDom days / 10 % 10), digitChar (civilDom days % 10),
      'T', digitChar (t / 3600000 % 24 / 10), digitChar (t / 3600000 % 24 % 10),
      ':', digitChar (t / 60000 % 60 / 10), digitChar (t / 60000 % 60 % 10),
      ':', digitChar (t / 1000 % 60 / 10), digitChar (t / 1000 % 60 % 10),
      '.', digitChar (t % 1000 / 100), digitChar (t % 1000 / 10 % 10),
      digitChar (t % 1000 % 10), 'Z' ]

/-- `Date.prototype.toISOString`. -/
def toISOString (t : Nat) : String := String.mk (toISOChars t)

/-- Test for a decimal digit character. -/
def isDigitCh (c : Char) : Bool := '0' ≤ c && c ≤ '9'

/-- Numeric value of a digit character. -/
def digitVal (c : Char) : Nat := c.toNat - 48

/-- Parse a nonempty all-digit character list as a decimal number. -/
def parseNatChars (l : List Char) : Option Nat :=
  if l.isEmpty then none
  else if l.all isDigitCh then some (l.foldl (fun a c => a * 10 + digitVal c) 0)
  else none

/-- Two-digit field of an ISO string. -/
def digit2 (c1 c2 : Char) : Option Nat :=
  if isDigitCh c1 && isDigitCh c2 then some (digitVal c1 * 10 + digitVal c2) else none

/-- Three-digit field of an ISO string. -/
def digit3 (c1 c2 c3 : Char) : Option Nat :=
  if isDigitCh c1 && isDigitCh c2 && isDigitCh c3 then
    some (digitVal c1 * 100 + digitVal c2 * 10 + digitVal c3)
  else none

/-- The takeWhile predicate separating the year digits from the rest of
an ISO string. -/
def notDash (c : Char) : Bool := c ≠ '-'

/-- Read the fixed-width 20-character tail `-MM-DDTHH:MM:SS.mmmZ` of an
ISO string into the tuple (month, day, hours, minutes, seconds,
milliseconds). -/
def parseISOTail : List Char → Option (Nat × Nat × Nat × Nat × Nat × Nat)
  | c0 :: m1 :: m2 :: c3 :: d1 :: d2 :: c6 :: h1 :: h2 :: c9 :: i1 :: i2 ::
      c12 :: s1 :: s2 :: c15 :: f1 :: f2 :: f3 :: c19 :: [] =>
    if c0 = '-' ∧ c3 = '-' ∧ c6 = 'T' ∧ c9 = ':' ∧ c12 = ':' ∧ c15 = '.' ∧ c19 = 'Z' then
      (digit2 m1 m2).bind (fun m =>
        (digit2 d1 d2).bind (fun dom =>
          (digit2 h1 h2).bind (fun h =>
            (digit2 i1 i2).bind (fun mi =>
              (digit2 s1 s2).bind (fun s =>
                (digit3 f1 f2 f3).map (fun f => (m, dom, h, mi, s, f)))))))
    else none
  | _ => none

/-- Validate the parsed calendar fields and recombine them into a
millisecond timestamp. -/
def finishParse (y : Nat) (p : Nat × Nat × Nat × Nat × Nat × Nat) : Option Nat :=
  if 1970 ≤ y ∧ 1 ≤ p.1 ∧ p.1 ≤ 12 ∧ 1 ≤ p.2.1 ∧
      p.2.1 ≤ (monthLengths (isLeap y)).getD (p.1 - 1) 0 ∧
      p.2.2.1 < 24 ∧ p.2.2.2.1 < 60 ∧ p.2.2.2.2.1 < 60 then
    some (daysFromCivil y p.1 p.2.1 * 86400000 + p.2.2.1 * 3600000 +
      p.2.2.2.1 * 60000 + p.2.2.2.2.1 * 1000 + p.2.2.2.2.2)
  else none

/-- `new Date(isoString).getTime()` on a character list: accept
`YYYY…Y-MM-DDTHH:MM:SS.mmmZ` for a calendar date from 1970 on and
return its millisecond timestamp. -/
def parseISOChars (l : List Char) : Option Nat :=
  (parseNatChars (l.takeWhile notDash)).bind (fun y =>
    (parseISOTail (l.drop (l.takeWhile notDash).length)).bind (finishParse y))

/-- `new Date(s).getTime()` for an ISO timestamp string. -/
def parseISODate (s : String) : Option Nat := parseISOChars s.data

/-! ## The `User` entity (`user.entity.ts`) -/

/-- The immutable field record of a constructed `User`. -/
structure User where
  id : String
  email : String
  firstName : String
  lastName : String
  createdAt : Nat
  updatedAt : Nat
  isActive : Bool
deriving DecidableEq

/-- `User.validateEmail`: throw `Invalid email format` unless the email
matches the email regex. -/
def User.validateEmail (email : String) : Except Thrown Unit :=
  if emailRegexTest email.data then .ok () else .error (.plain "Invalid email format")

/-- `User.validateName`: throw unless the name is truthy and its
trimmed length is at least 2. -/
def User.validateName (name : String) (fieldName : String) : Except Thrown Unit :=
  if name = "" ∨ trimLen name < 2 then
    .error (.plain (fieldName ++ " must be at least 2 characters long"))
  else .ok ()

/-- The `User` constructor: validate the email and both names, then
produce the object (`new User(id, email, firstName, lastName,
createdAt, updatedAt, isActive)`; `isActive` defaults to `true` at the
call sites that omit it). -/
def User.construct (id email firstName lastName : String) (createdAt updatedAt : Nat)
    (isActive : Bool) : Except Thrown User :=
  match User.validateEmail email with
  | .error e => .error e
  | .ok _ =>
    match User.validateName firstName "First name" with
    | .error e => .error e
    | .ok _ =>
      match User.validateName lastName "Last name" with
      | .error e => .error e
      | .ok _ =>
          .ok { id := id, email := email, firstName := firstName, lastName := lastName,
                createdAt := createdAt, updatedAt := updatedAt, isActive := isActive }

/-- The derived `fullName` getter. -/
def User.fullName (u : User) : String := u.firstName ++ " " ++ u.lastName

/-- Whether the constructor's validations accept the fields of `u`,
i.e. `u` could have been constructed. -/
def User.valid (u : User) : Bool :=
  emailRegexTest u.email.data && 2 ≤ trimLen u.firstName && 2 ≤ trimLen u.lastName

/-- The plain-object shape handled by `toJSON`/`fromJSON`.  `fullName`
and `isActive` are optional: `fromJSON` accepts objects where they are
absent (`undefined`). -/
structure UserJSON where
  id : String
  email : String
  firstName : String
  lastName : String
  fullName : Option String
  createdAt : String
  updatedAt : String
  isActive : Option Bool
deriving DecidableEq

/-- `User.toJSON`: every field plus the derived `fullName`, with the
timestamps encoded as ISO-8601 strings. -/
def User.toJSON (u : User) : UserJSON :=
  { id := u.id, email := u.email, firstName := u.firstName, lastName := u.lastName,
    fullName := some u.fullName,
    createdAt := toISOString u.createdAt, updatedAt := toISOString u.updatedAt,
    isActive := some u.isActive }

/-- `User.fromJSON`: rebuild the entity through the (validating)
constructor, parsing the timestamps with `new Date(string)` and leaving
`isActive` to the constructor's default `true` when it is absent.  The
`fullName` field of the input is never read.  (A JavaScript `Date`
built from an unparsable string is an `Invalid Date`; the claims only
exercise parsable timestamps, so that case surfaces as an error
here.) -/
def User.fromJSON (data : UserJSON) : Except Thrown User :=
  match parseISODate data.createdAt, parseISODate data.updatedAt with
  | some c, some u =>
      User.construct data.id data.email data.firstName data.lastName c u
        (data.isActive.getD true)
  | _, _ => .error (.plain "Invalid Date")

/-! ## The repository contract and use-case execution model -/

/-- Payload of `IUserRepository.create` and of
`CreateUserUseCase.execute`. -/
structure CreateData where
  email : String
  firstName : String
  lastName : String
deriving DecidableEq

/-- Payload of `IUserRepository.update` and of
`UpdateUserUseCase.execute`: both fields optional. -/
structure UpdateData where
  firstName : Option String
  lastName : Option String
deriving DecidableEq

/-- The record passed to `IUserRepository.getAll` after
`ListUsersUseCase` normalization: `page` and `limit` are always
present, `search` may have been dropped. -/
structure NormalizedOptions where
  page : Int
  limit : Int
  search : Option String
  isActive : Option Bool
deriving DecidableEq

/-- The raw options record accepted by `ListUsersUseCase.execute`. -/
structure ListOptions where
  page : Option Int
  limit : Option Int
  search : Option String
  isActive : Option Bool
deriving DecidableEq

/-- The result shape of `IUserRepository.getAll`. -/
structure ListResult where
  users : List User
  total : Nat
  page : Int
  limit : Int
deriving DecidableEq

/-- One repository call, with its arguments. -/
inductive RepoCall
  | getAll (options : NormalizedOptions)
  | getById (id : String)
  | getByEmail (email : String)
  | create (data : CreateData)
  | update (id : String) (data : UpdateData)
  | deleteCall (id : String)
  | permanentDelete (id : String)
  | existsByEmail (email : String)
  | getByDateRange (startDate endDate : Nat)
  | getActiveUsersCount
  | search (query : String) (limit : Int)
deriving DecidableEq

/-- The repository collaborator: the response every operation would
return (or the error its observable would emit). -/
structure RepoBehavior where
  getAll : NormalizedOptions → Except Thrown ListResult
  getById : String → Except Thrown (Option User)
  getByEmail : String → Except Thrown (Option User)
  create : CreateData → Except Thrown User
  update : String → UpdateData → Except Thrown User
  deleteById : String → Except Thrown Bool
  permanentDelete : String → Except Thrown Bool
  existsByEmail : String → Except Thrown Bool
  getByDateRange : Nat → Nat → Except Thrown (List User)
  getActiveUsersCount : Except Thrown Nat
  searchUsers : String → Int → Except Thrown (List User)

/-- Result of running a use-case entry point against a repository:
a synchronous throw (no repository interaction has happened), or the
error/value the observable settles with, together with the ordered
repository calls that were issued. -/
inductive Outcome (α : Type)
  | syncError (e : Thrown)
  | asyncError (e : Thrown) (calls : List RepoCall)
  | ok (value : α) (calls : List RepoCall)
deriving DecidableEq

/-- Whether an outcome is a synchronous throw. -/
def Outcome.isSync {α : Type} : Outcome α → Bool
  | .syncError _ => true
  | _ => false

/-- The repository calls an outcome performed. -/
def Outcome.trace {α : Type} : Outcome α → List RepoCall
  | .syncError _ => []
  | .asyncError _ calls => calls
  | .ok _ calls => calls

/-! ## Create use case (`create-user.use-case.ts`) -/

/-- `CreateUserUseCase.validateUserData`, checks in source order. -/
def CreateUserUseCase.validateUserData (d : CreateData) : Except Thrown Unit :=
  if d.email = "" ∨ trimLen d.email = 0 then .error (.plain "Email is required")
  else if d.firstName = "" ∨ trimLen d.firstName = 0 then
    .error (.plain "First name is required")
  else if d.lastName = "" ∨ trimLen d.lastName = 0 then
    .error (.plain "Last name is required")
  else if ¬ emailRegexTest d.email.data then .error (.plain "Invalid email format")
  else if trimLen d.firstName < 2 then
    .error (.plain "First name must be at least 2 characters long")
  else if trimLen d.lastName < 2 then
    .error (.plain "Last name must be at least 2 characters long")
  else if ¬ nameRegexTest d.firstName.data then
    .error (.plain "First name can only contain letters and spaces")
  else if ¬ nameRegexTest d.lastName.data then
    .error (.plain "Last name can only contain letters and spaces")
  else .ok ()

/-- `CreateUserUseCase.execute`: synchronous validation, then
`existsByEmail` piped through `switchMap` into either the
already-exists error or `create` (the trailing `map` is the
identity). -/
def CreateUserUseCase.execute (repo : RepoBehavior) (userData : CreateData) :
    Outcome User :=
  match CreateUserUseCase.validateUserData userData with
  | .error e => .syncError e
  | .ok _ =>
    match repo.existsByEmail userData.email with
    | .error e => .asyncError e [.existsByEmail userData.email]
    | .ok true =>
        .asyncError (.plain "User with this email already exists")
          [.existsByEmail userData.email]
    | .ok false =>
      match repo.create userData with
      | .error e => .asyncError e [.existsByEmail userData.email, .create userData]
      | .ok u => .ok u [.existsByEmail userData.email, .create userData]

/-! ## Get use case (`get-user.use-case.ts`) -/

/-- `GetUserUseCase.execute`: non-empty id check, then delegate. -/
def GetUserUseCase.execute (repo : RepoBehavior) (id : String) :
    Outcome (Option User) :=
  if id = "" ∨ trimLen id = 0 then .syncError (.plain "User ID is required")
  else
    match repo.getById id with
    | .error e => .asyncError e [.getById id]
    | .ok r => .ok r [.getById id]

/-- `GetUserUseCase.executeByEmail`: non-empty and well-formed email,
then delegate. -/
def GetUserUseCase.executeByEmail (repo : RepoBehavior) (email : String) :
    Outcome (Option User) :=
  if email = "" ∨ trimLen email = 0 then .syncError (.plain "Email is required")
  else if ¬ emailRegexTest email.data then .syncError (.plain "Invalid email format")
  else
    match repo.getByEmail email with
    | .error e => .asyncError e [.getByEmail email]
    | .ok r => .ok r [.getByEmail email]

/-! ## Delete use case (`delete-user.use-case.ts`) -/

/-- `DeleteUserUseCase.executeSoftDelete`: id check, fetch, fail on
missing or already-inactive user, else delegate to `delete`. -/
def DeleteUserUseCase.executeSoftDelete (repo : RepoBehavior) (id : String) :
    Outcome Bool :=
  if id = "" ∨ trimLen id = 0 then .syncError (.plain "User ID is required")
  else
    match repo.getById id with
    | .error e => .asyncError e [.getById id]
    | .ok none => .asyncError (.plain "User not found") [.getById id]
    | .ok (some user) =>
      if user.isActive = false then
        .asyncError (.plain "User is already inactive") [.getById id]
      else
        match repo.deleteById id with
        | .error e => .asyncError e [.getById id, .deleteCall id]
        | .ok b => .ok b [.getById id, .deleteCall id]

/-- `DeleteUserUseCase.executeHardDelete`: id check, fetch, fail on
missing user or on a still-active user, else delegate to
`permanentDelete`. -/
def DeleteUserUseCase.executeHardDelete (repo : RepoBehavior) (id : String) :
    Outcome Bool :=
  if id = "" ∨ trimLen id = 0 then .syncError (.plain "User ID is required")
  else
    match repo.getById id with
    | .error e => .asyncError e [.getById id]
    | .ok none => .asyncError (.plain "User not found") [.getById id]
    | .ok (some user) =>
      if user.isActive then
        .asyncError (.plain "Cannot permanently delete active user. Deactivate first.")
          [.getById id]
      else
        match repo.permanentDelete id with
        | .error e => .asyncError e [.getById id, .permanentDelete id]
        | .ok b => .ok b [.getById id, .permanentDelete id]

/-! ## Update use case (`update-user.use-case.ts`) -/

/-- `Object.keys(userData).length` for the two-field partial. -/
def UpdateData.keyCount (d : UpdateData) : Nat :=
  (if d.firstName.isSome then 1 else 0) + (if d.lastName.isSome then 1 else 0)

/-- `UpdateUserUseCase.validateInput`: non-empty id, non-empty
payload. -/
def UpdateUserUseCase.validateInput (id : String) (d : UpdateData) :
    Except Thrown Unit :=
  if id = "" ∨ trimLen id = 0 then .error (.plain "User ID is required")
  else if d.keyCount = 0 then .error (.plain "Update data is required")
  else .ok ()

/-- One provided-field block of `validateUpdateData` (the source
repeats the same three checks for `firstName` and `lastName`). -/
def UpdateUserUseCase.validateNameField (v : Option String) (fieldName : String) :
    Except Thrown Unit :=
  match v with
  | none => .ok ()
  | some name =>
    if name = "" ∨ trimLen name = 0 then
      .error (.plain (fieldName ++ " cannot be empty"))
    else if trimLen name < 2 then
      .error (.plain (fieldName ++ " must be at least 2 characters long"))
    else if ¬ nameRegexTest name.data then
      .error (.plain (fieldName ++ " can only contain letters and spaces"))
    else .ok ()

/-- `UpdateUserUseCase.validateUpdateData`: validate whichever of the
two name fields is provided. -/
def UpdateUserUseCase.validateUpdateData (d : UpdateData) : Except Thrown Unit :=
  match UpdateUserUseCase.validateNameField d.firstName "First name" with
  | .error e => .error e
  | .ok _ => UpdateUserUseCase.validateNameField d.lastName "Last name"

/-- `UpdateUserUseCase.execute`: synchronous input-shape validation,
then fetch; a missing or inactive user fails inside the pipe, the
provided name fields are validated only after those checks, and only
then is `update` delegated. -/
def UpdateUserUseCase.execute (repo : RepoBehavior) (id : String) (userData : UpdateData) :
    Outcome User :=
  match UpdateUserUseCase.validateInput id userData with
  | .error e => .syncError e
  | .ok _ =>
    match repo.getById id with
    | .error e => .asyncError e [.getById id]
    | .ok none => .asyncError (.plain "User not found") [.getById id]
    | .ok (some existingUser) =>
      if existingUser.isActive = false then
        .asyncError (.plain "Cannot update inactive user") [.getById id]
      else
        match UpdateUserUseCase.validateUpdateData userData with
        | .error e => .asyncError e [.getById id]
        | .ok _ =>
          match repo.update id userData with
          | .error e => .asyncError e [.getById id, .update id userData]
          | .ok u => .ok u [.getById id, .update id userData]

/-! ## List use case (`list-users.use-case.ts`) -/

/-- `ListUsersUseCase.validateAndSetDefaults`.  `options.page ||
defaults.page` treats `undefined` and `0` as falsy; likewise for
`limit`.  A truthy (non-empty) search whose trimmed length is below 2
is set to `undefined`; the returned record carries `search?.trim()`. -/
def ListUsersUseCase.validateAndSetDefaults (options : Option ListOptions) :
    NormalizedOptions :=
  match options with
  | none => { page := 1, limit := 10, search := none, isActive := none }
  | some o =>
    let page0 : Int := match o.page with
      | none => 1
      | some p => if p = 0 then 1 else p
    let page : Int := if page0 < 1 then 1 else page0
    let limit0 : Int := match o.limit with
      | none => 10
      | some l => if l = 0 then 10 else l
    let limit1 : Int := if limit0 < 1 then 10 else limit0
    let limit : Int := if limit1 > 100 then 100 else limit1
    let search0 : Option String := match o.search with
      | none => none
      | some s => if s ≠ "" ∧ trimLen s < 2 then none else some s
    { page := page, limit := limit,
      search := match search0 with
        | none => none
        | some s => some (String.mk (jsTrim s.data)),
      isActive := o.isActive }

/-- `ListUsersUseCase.execute`: normalize, then delegate to
`getAll`. -/
def ListUsersUseCase.execute (repo : RepoBehavior) (options : Option ListOptions) :
    Outcome ListResult :=
  match repo.getAll (ListUsersUseCase.validateAndSetDefaults options) with
  | .error e => .asyncError e [.getAll (ListUsersUseCase.validateAndSetDefaults options)]
  | .ok r => .ok r [.getAll (ListUsersUseCase.validateAndSetDefaults options)]

/-- The search limit `limit && limit > 0 ? Math.min(limit, 100) : 20`
of `ListUsersUseCase.executeSearch` (`0` is falsy, so a zero or
negative limit falls back to the default 20). -/
def ListUsersUseCase.searchLimitOf : Option Int → Int
  | none => 20
  | some l => if l ≠ 0 ∧ l > 0 then min l 100 else 20

/-- `ListUsersUseCase.executeSearch`: require a trimmed query of length
at least 2 (the `Search query is required` branch covers the empty
cases), then delegate to `search` with the trimmed query and the
clamped limit. -/
def ListUsersUseCase.executeSearch (repo : RepoBehavior) (query : String)
    (limit : Option Int) : Outcome (List User) :=
  if query = "" ∨ trimLen query = 0 then .syncError (.plain "Search query is required")
  else if trimLen query < 2 then
    .syncError (.plain "Search query must be at least 2 characters long")
  else
    match repo.searchUsers (String.mk (jsTrim query.data))
        (ListUsersUseCase.searchLimitOf limit) with
    | .error e =>
        .asyncError e
          [.search (String.mk (jsTrim query.data)) (ListUsersUseCase.searchLimitOf limit)]
    | .ok us =>
        .ok us
          [.search (String.mk (jsTrim query.data)) (ListUsersUseCase.searchLimitOf limit)]

/-- `ListUsersUseCase.executeByDateRange` (both dates are `Date`
objects, hence always truthy; `now` stands for `new Date()`). -/
def ListUsersUseCase.executeByDateRange (repo : RepoBehavior)
    (startDate endDate now : Nat) : Outcome (List User) :=
  if startDate ≥ endDate then .syncError (.plain "Start date must be before end date")
  else if startDate > now then .syncError (.plain "Start date cannot be in the future")
  else
    match repo.getByDateRange startDate endDate with
    | .error e => .asyncError e [.getByDateRange startDate endDate]
    | .ok us => .ok us [.getByDateRange startDate endDate]

/-- `ListUsersUseCase.executeGetActiveCount`: pure delegation. -/
def ListUsersUseCase.executeGetActiveCount (repo : RepoBehavior) : Outcome Nat :=
  match repo.getActiveUsersCount with
  | .error e => .asyncError e [.getActiveUsersCount]
  | .ok n => .ok n [.getActiveUsersCount]

/-! ## Proof-layer helpers and concrete sample data -/

/-- Value of the digit run `natCharsAux fuel n acc` folds to in front of
an accumulator value `a` (mirrors the recursion of `natCharsAux`). -/
def pushValAux : Nat → Nat → Nat → Nat
  | 0, a, n => a * 10 + n
  | fuel + 1, a, n =>
      if n < 10 then a * 10 + n else pushValAux fuel (a) (n / 10) * 10 + n % 10

/-- A valid active user (fields as in the repository's entity tests). -/
def sampleActiveUser : User :=
  { id := "1", email := "test@example.com", firstName := "John", lastName := "Doe",
    createdAt := 1672531200000, updatedAt := 1672531200000, isActive := true }

/-- The same user, deactivated. -/
def sampleInactiveUser : User := { sampleActiveUser with isActive := false }

/-- A valid create payload. -/
def sampleCreateData : CreateData :=
  { email := "test@example.com", firstName := "John", lastName := "Doe" }

/-- A repository stand-in with neutral responses; witnesses override
single operations. -/
def stubRepo : RepoBehavior :=
  { getAll := fun v => .ok { users := [], total := 0, page := v.page, limit := v.limit },
    getById := fun _ => .ok none,
    getByEmail := fun _ => .ok none,
    create := fun _ => .error (.plain "unexpected create"),
    update := fun _ _ => .error (.plain "unexpected update"),
    deleteById := fun _ => .ok true,
    permanentDelete := fun _ => .ok true,
    existsByEmail := fun _ => .ok false,
    getByDateRange := fun _ _ => .ok [],
    getActiveUsersCount := .ok 0,
    searchUsers := fun _ _ => .ok [] }

/-- Repository on which the sample email is already taken. -/
def repoEmailTaken : RepoBehavior := { stubRepo with existsByEmail := fun _ => .ok true }

/-- The entity `repoCreateOk` answers `create` with. -/
def createdUserOf (d : CreateData) : User :=
  { id := "1", email := d.email, firstName := d.firstName, lastName := d.lastName,
    createdAt := 1672531200000, updatedAt := 1672531200000, isActive := true }

/-- Repository on which creation succeeds, assigning id "1". -/
def repoCreateOk : RepoBehavior :=
  { stubRepo with create := fun d => .ok (createdUserOf d) }

/-- Repository that returns the active sample user for every id. -/
def repoActiveUser : RepoBehavior :=
  { stubRepo with getById := fun _ => .ok (some sampleActiveUser),
                  update := fun _ _ => .ok sampleActiveUser }

/-- Repository that returns the inactive sample user for every id. -/
def repoInactiveUser : RepoBehavior :=
  { stubRepo with getById := fun _ => .ok (some sampleInactiveUser) }

/-- A serialized form of `sampleActiveUser` whose optional fields are
absent. -/
def sampleJSON : UserJSON :=
  { id := "1", email := "test@example.com", firstName := "John", lastName := "Doe",
    fullName := none,
    createdAt := "2023-01-01T00:00:00.000Z", updatedAt := "2023-01-01T00:00:00.000Z",
    isActive := none }

/-! ## Lemmas about the decimal rendering -/

theorem daysInYear_pos (y : Nat) : 365 ≤ daysInYear y := by
  unfold daysInYear
  split <;> omega

theorem digitChar_props : ∀ k, k < 10 →
    isDigitCh (digitChar k) = true ∧ digitVal (digitChar k) = k ∧
      notDash (digitChar k) = true := by
  decide

theorem natCharsAux_ne_nil : ∀ (fuel n : Nat) (acc : List Char),
    natCharsAux fuel n acc ≠ [] := by
  intro fuel
  induction fuel with
  | zero => intro n acc; simp [natCharsAux]
  | succ fuel ih =>
      intro n acc
      unfold natCharsAux
      split
      · simp
      · exact ih _ _

theorem natCharsAux_all (p : Char → Bool) (hp : ∀ k, k < 10 → p (digitChar k) = true) :
    ∀ (fuel n : Nat) (acc : List Char), n ≤ fuel → acc.all p = true →
      (natCharsAux fuel n acc).all p = true := by
  intro fuel
  induction fuel with
  | zero =>
      intro n acc hn hacc
      have hn0 : n = 0 := by omega
      subst hn0
      simp [natCharsAux, hacc, hp 0 (by omega)]
  | succ fuel ih =>
      intro n acc hn hacc
      by_cases h : n < 10
      · simp [natCharsAux, h, hacc, hp n h]
      · simp only [natCharsAux, if_neg h]
        apply ih
        · omega
        · simp [hacc, hp (n % 10) (by omega)]

theorem natCharsAux_foldl : ∀ (fuel n a : Nat) (acc : List Char), n ≤ fuel →
    (natCharsAux fuel n acc).foldl (fun b c => b * 10 + digitVal c) a =
      acc.foldl (fun b c => b * 10 + digitVal c) (pushValAux fuel a n) := by
  intro fuel
  induction fuel with
  | zero =>
      intro n a acc hn
      have hn0 : n = 0 := by omega
      subst hn0
      simp [natCharsAux, pushValAux, (digitChar_props 0 (by omega)).2.1]
  | succ fuel ih =>
      intro n a acc hn
      by_cases h : n < 10
      · simp [natCharsAux, pushValAux, h, (digitChar_props n h).2.1]
      · simp only [natCharsAux, pushValAux, if_neg h]
        rw [ih (n / 10) a _ (by omega)]
        simp [(digitChar_props (n % 10) (by omega)).2.1]

theorem pushValAux_zero : ∀ (fuel n : Nat), n ≤ fuel → pushValAux fuel 0 n = n := by
  intro fuel
  induction fuel with
  | zero =>
      intro n hn
      have hn0 : n = 0 := by omega
      subst hn0
      simp [pushValAux]
  | succ fuel ih =>
      intro n hn
      by_cases h : n < 10
      · simp [pushValAux, h]
      · simp only [pushValAux, if_neg h]
        rw [ih (n / 10) (by omega)]
        omega

theorem natChars_all_digits (n : Nat) : (natChars n).all isDigitCh = true :=
  natCharsAux_all isDigitCh (fun k hk => (digitChar_props k hk).1) n n [] le_rfl rfl

theorem natChars_all_notDash (n : Nat) : (natChars n).all notDash = true :=
  natCharsAux_all notDash (fun k hk => (digitChar_props k hk).2.2) n n [] le_rfl rfl

theorem parseNatChars_natChars (n : Nat) : parseNatChars (natChars n) = some n := by
  unfold parseNatChars
  rw [if_neg, if_pos (natChars_all_digits n)]
  · have hf := natCharsAux_foldl n n 0 [] le_rfl
    unfold natChars
    rw [hf]
    simp [pushValAux_zero n n le_rfl]
  · simp only [List.isEmpty_iff]
    exact natCharsAux_ne_nil n n []

theorem takeWhile_append_stop (p : Char → Bool) (c : Char) (hc : p c = false) :
    ∀ (xs ys : List Char), xs.all p = true → (xs ++ c :: ys).takeWhile p = xs := by
  intro xs
  induction xs with
  | nil => intro ys _; simp [List.takeWhile_cons, hc]
  | cons a xs ih =>
      intro ys hall
      simp only [List.all_cons, Bool.and_eq_true] at hall
      simp [List.takeWhile_cons, hall.1, ih ys hall.2]

/-! ## Lemmas about the calendar conversion -/

theorem yearSplitAux_spec : ∀ (fuel y d : Nat), d ≤ fuel →
    ∃ n, yearSplitAux fuel y d = (y + n, d - spanDays y n) ∧
      spanDays y n ≤ d ∧ d - spanDays y n < daysInYear (y + n) := by
  intro fuel
  induction fuel with
  | zero =>
      intro y d hd
      have hd0 : d = 0 := by omega
      subst hd0
      refine ⟨0, by simp [yearSplitAux, spanDays], by simp [spanDays], ?_⟩
      have := daysInYear_pos y
      simp [spanDays]
      omega
  | succ fuel ih =>
      intro y d hd
      by_cases h : d < daysInYear y
      · refine ⟨0, by simp [yearSplitAux, h, spanDays], by simp [spanDays], ?_⟩
        simpa [spanDays] using h
      · have hpos := daysInYear_pos y
        obtain ⟨n, heq, hle, hlt⟩ := ih (y + 1) (d - daysInYear y) (by omega)
        have hspan : spanDays y (n + 1) = daysInYear y + spanDays (y + 1) n := rfl
        have hyy : y + 1 + n = y + (n + 1) := by omega
        rw [hyy] at heq hlt
        refine ⟨n + 1, ?_, by omega, by omega⟩
        simp only [yearSplitAux, if_neg h]
        rw [heq, Prod.mk.injEq]
        exact ⟨rfl, by omega⟩

theorem monthSplit_spec : ∀ (lens : List Nat) (m0 doy : Nat), doy < lens.sum →
    ∃ k, k < lens.length ∧
      monthSplit m0 lens doy = (m0 + k, doy - (lens.take k).sum + 1) ∧
      (lens.take k).sum ≤ doy ∧ doy - (lens.take k).sum + 1 ≤ lens.getD k 0 := by
  intro lens
  induction lens with
  | nil => intro m0 doy h; simp at h
  | cons len rest ih =>
      intro m0 doy h
      by_cases hl : doy < len
      · refine ⟨0, by simp, ?_, by simp, ?_⟩
        · simp [monthSplit, hl]
        · simpa [List.getD] using hl
      · simp only [List.sum_cons] at h
        obtain ⟨k, hk, heq, hle, hbound⟩ := ih (m0 + 1) (doy - len) (by omega)
        have hmm : m0 + 1 + k = m0 + (k + 1) := by omega
        rw [hmm] at heq
        refine ⟨k + 1, by simp [hk], ?_, ?_, ?_⟩
        · simp only [monthSplit, if_neg hl]
          rw [heq, Prod.mk.injEq]
          refine ⟨rfl, ?_⟩
          simp only [List.take_succ_cons, List.sum_cons]
          omega
        · simp only [List.take_succ_cons, List.sum_cons]
          omega
        · simpa [List.getD, Nat.sub_sub] using hbound

theorem monthLengths_sum (y : Nat) : (monthLengths (isLeap y)).sum = daysInYear y := by
  unfold monthLengths daysInYear
  cases isLeap y <;> rfl

theorem monthLengths_length (b : Bool) : (monthLengths b).length = 12 := by
  cases b <;> rfl

theorem civil_roundtrip (d : Nat) :
    1970 ≤ civilYear d ∧ 1 ≤ civilMonth d ∧ civilMonth d ≤ 12 ∧ 1 ≤ civilDom d ∧
      civilDom d ≤ (monthLengths (isLeap (civilYear d))).getD (civilMonth d - 1) 0 ∧
      daysFromCivil (civilYear d) (civilMonth d) (civilDom d) = d := by
  obtain ⟨n, heq, hle, hlt⟩ := yearSplitAux_spec d 1970 d le_rfl
  have hy : civilYear d = 1970 + n := by
    unfold civilYear yearSplit
    rw [heq]
  have hdoy : civilDoy d = d - spanDays 1970 n := by
    unfold civilDoy yearSplit
    rw [heq]
  have hsum : (monthLengths (isLeap (civilYear d))).sum = daysInYear (civilYear d) :=
    monthLengths_sum _
  have hdoy_lt : civilDoy d < (monthLengths (isLeap (civilYear d))).sum := by
    rw [hsum, hy, hdoy]
    exact hlt
  obtain ⟨k, hk, hmeq, hmle, hmbound⟩ :=
    monthSplit_spec (monthLengths (isLeap (civilYear d))) 1 (civilDoy d) hdoy_lt
  rw [monthLengths_length] at hk
  have hm : civilMonth d = 1 + k := by
    unfold civilMonth
    rw [hmeq]
  have hdom : civilDom d = civilDoy d - ((monthLengths (isLeap (civilYear d))).take k).sum + 1 := by
    unfold civilDom
    rw [hmeq]
  have hys : yearStart (civilYear d) = spanDays 1970 n := by
    have harg : 1970 + n - 1970 = n := by omega
    rw [hy]
    unfold yearStart
    rw [harg]
  have hmk : civilMonth d - 1 = k := by omega
  refine ⟨by omega, by omega, by omega, by omega, ?_, ?_⟩
  · rw [hmk]
    omega
  · unfold daysFromCivil
    rw [hys, hmk]
    omega

theorem monthLengths_getD_le (b : Bool) (k : Nat) : (monthLengths b).getD k 0 ≤ 31 := by
  cases b <;> rcases k with _ | _ | _ | _ | _ | _ | _ | _ | _ | _ | _ | _ | k <;>
    simp [monthLengths, List.getD]

theorem digit2_digitChar : ∀ a, a < 10 → ∀ b, b < 10 →
    digit2 (digitChar a) (digitChar b) = some (a * 10 + b) := by
  decide

theorem digit3_digitChar : ∀ a, a < 10 → ∀ b, b < 10 → ∀ c, c < 10 →
    digit3 (digitChar a) (digitChar b) (digitChar c) = some (a * 100 + b * 10 + c) := by
  decide

/-- The platform codec round trip: parsing the ISO-8601 rendering of a
millisecond timestamp recovers the timestamp exactly. -/
theorem parseISOChars_toISOChars (t : Nat) : parseISOChars (toISOChars t) = some t := by
  obtain ⟨h1970, hm1, hm12, hdom1, hdomle, hdfc⟩ := civil_roundtrip (t / 86400000)
  have hdom31 : civilDom (t / 86400000) ≤ 31 :=
    le_trans hdomle (monthLengths_getD_le _ _)
  have htail :
      toISOChars t = natChars (civilYear (t / 86400000)) ++
        '-' :: digitChar (civilMonth (t / 86400000) / 10 % 10) ::
        digitChar (civilMonth (t / 86400000) % 10) ::
        '-' :: digitChar (civilDom (t / 86400000) / 10 % 10) ::
        digitChar (civilDom (t / 86400000) % 10) ::
        'T' :: digitChar (t / 3600000 % 24 / 10) :: digitChar (t / 3600000 % 24 % 10) ::
        ':' :: digitChar (t / 60000 % 60 / 10) :: digitChar (t / 60000 % 60 % 10) ::
        ':' :: digitChar (t / 1000 % 60 / 10) :: digitChar (t / 1000 % 60 % 10) ::
        '.' :: digitChar (t % 1000 / 100) :: digitChar (t % 1000 / 10 % 10) ::
        digitChar (t % 1000 % 10) :: 'Z' :: [] := rfl
  rw [htail]
  unfold parseISOChars
  rw [takeWhile_append_stop notDash '-' (by decide) _ _ (natChars_all_notDash _),
    parseNatChars_natChars, List.drop_left, Option.some_bind]
  simp only [parseISOTail]
  rw [if_pos (by simp)]
  rw [digit2_digitChar _ (by omega) _ (by omega), Option.some_bind,
    digit2_digitChar _ (by omega) _ (by omega), Option.some_bind,
    digit2_digitChar _ (by omega) _ (by omega), Option.some_bind,
    digit2_digitChar _ (by omega) _ (by omega), Option.some_bind,
    digit2_digitChar _ (by omega) _ (by omega), Option.some_bind,
    digit3_digitChar _ (by omega) _ (by omega) _ (by omega), Option.map_some',
    Option.some_bind]
  have hM : civilMonth (t / 86400000) / 10 % 10 * 10 + civilMonth (t / 86400000) % 10 =
      civilMonth (t / 86400000) := by omega
  have hD : civilDom (t / 86400000) / 10 % 10 * 10 + civilDom (t / 86400000) % 10 =
      civilDom (t / 86400000) := by omega
  have hH : t / 3600000 % 24 / 10 * 10 + t / 3600000 % 24 % 10 = t / 3600000 % 24 := by omega
  have hMi : t / 60000 % 60 / 10 * 10 + t / 60000 % 60 % 10 = t / 60000 % 60 := by omega
  have hS : t / 1000 % 60 / 10 * 10 + t / 1000 % 60 % 10 = t / 1000 % 60 := by omega
  have hF : t % 1000 / 100 * 100 + t % 1000 / 10 % 10 * 10 + t % 1000 % 10 = t % 1000 := by
    omega
  rw [hM, hD, hH, hMi, hS, hF]
  unfold finishParse
  dsimp only
  rw [if_pos]
  · rw [hdfc]
    exact Option.some_inj.mpr (by omega)
  · exact ⟨h1970, hm1, hm12, hdom1, hdomle, by omega, by omega, by omega⟩

/-- Round trip at the `String` level. -/
theorem parseISODate_toISOString (t : Nat) : parseISODate (toISOString t) = some t := by
  unfold parseISODate toISOString
  exact parseISOChars_toISOChars t

/-! ## Lemmas about the entity constructor -/

theorem validateEmail_ok (email : String) (h : emailRegexTest email.data = true) :
    User.validateEmail email = .ok () := by
  unfold User.validateEmail
  rw [if_pos h]

theorem validateEmail_error (email : String) (h : emailRegexTest email.data = false) :
    User.validateEmail email = .error (.plain "Invalid email format") := by
  unfold User.validateEmail
  rw [if_neg]
  simp [h]

theorem validateName_ok (name fieldName : String) (h : 2 ≤ trimLen name) :
    User.validateName name fieldName = .ok () := by
  unfold User.validateName
  rw [if_neg]
  rintro (he | hlt)
  · rw [he] at h
    exact absurd h (by decide)
  · omega

theorem validateName_error (name fieldName : String) (h : trimLen name < 2) :
    User.validateName name fieldName =
      .error (.plain (fieldName ++ " must be at least 2 characters long")) := by
  unfold User.validateName
  rw [if_pos (Or.inr h)]

theorem userConstruct_ok (id email firstName lastName : String) (c up : Nat) (a : Bool)
    (he : emailRegexTest email.data = true) (hf : 2 ≤ trimLen firstName)
    (hl : 2 ≤ trimLen lastName) :
    User.construct id email firstName lastName c up a =
      .ok { id := id, email := email, firstName := firstName, lastName := lastName,
            createdAt := c, updatedAt := up, isActive := a } := by
  unfold User.construct
  rw [validateEmail_ok _ he, validateName_ok _ _ hf, validateName_ok _ _ hl]

theorem userConstruct_email_error (id email firstName lastName : String) (c up : Nat)
    (a : Bool) (he : emailRegexTest email.data = false) :
    User.construct id email firstName lastName c up a =
      .error (.plain "Invalid email format") := by
  unfold User.construct
  rw [validateEmail_error _ he]

theorem userConstruct_firstName_error (id email firstName lastName : String) (c up : Nat)
    (a : Bool) (he : emailRegexTest email.data = true) (hf : trimLen firstName < 2) :
    User.construct id email firstName lastName c up a =
      .error (.plain "First name must be at least 2 characters long") := by
  unfold User.construct
  rw [validateEmail_ok _ he, validateName_error _ _ hf]
  rfl

theorem userConstruct_lastName_error (id email firstName lastName : String) (c up : Nat)
    (a : Bool) (he : emailRegexTest email.data = true) (hf : 2 ≤ trimLen firstName)
    (hl : trimLen lastName < 2) :
    User.construct id email firstName lastName c up a =
      .error (.plain "Last name must be at least 2 characters long") := by
  unfold User.construct
  rw [validateEmail_ok _ he, validateName_ok _ _ hf, validateName_error _ _ hl]
  rfl

theorem userConstruct_fields (id email firstName lastName : String) (c up : Nat)
    (a : Bool) (u : User)
    (h : User.construct id email firstName lastName c up a = .ok u) :
    u = { id := id, email := email, firstName := firstName, lastName := lastName,
          createdAt := c, updatedAt := up, isActive := a } := by
  by_cases he : emailRegexTest email.data = true
  · by_cases hf : 2 ≤ trimLen firstName
    · by_cases hl : 2 ≤ trimLen lastName
      · rw [userConstruct_ok _ _ _ _ _ _ _ he hf hl] at h
        exact (Except.ok.inj h).symm
      · rw [userConstruct_lastName_error _ _ _ _ _ _ _ he hf (by omega)] at h
        cases h
    · rw [userConstruct_firstName_error _ _ _ _ _ _ _ he (by omega)] at h
      cases h
  · rw [userConstruct_email_error _ _ _ _ _ _ _ (by simpa using he)] at h
    cases h

/-! ## Claim C4 -/

/-- C4: for every `User` whose fields satisfy the construction
invariants, `fromJSON (toJSON u)` reproduces `u` field-for-field:
equal `id`, `email`, `firstName`, `lastName`, `isActive`, and
`createdAt`/`updatedAt` identical to the millisecond after the
ISO-8601 string encode/decode round trip. -/
theorem C4_fromJSON_toJSON_roundtrip (u : User) (h : u.valid = true) :
    User.fromJSON (User.toJSON u) = .ok u := by
  unfold User.valid at h
  simp only [Bool.and_eq_true, decide_eq_true_eq] at h
  have hctor : User.construct u.id u.email u.firstName u.lastName u.createdAt u.updatedAt
      u.isActive = .ok u := by
    rw [userConstruct_ok _ _ _ _ _ _ _ h.1.1 h.1.2 h.2]
  unfold User.fromJSON User.toJSON
  dsimp only
  rw [parseISODate_toISOString, parseISODate_toISOString]
  exact hctor

/-- Witness for C4 at a concrete valid user. -/
theorem C4_fromJSON_toJSON_roundtrip_witness :
    sampleActiveUser.valid = true ∧
      User.fromJSON (User.toJSON sampleActiveUser) = .ok sampleActiveUser :=
  ⟨by decide, C4_fromJSON_toJSON_roundtrip sampleActiveUser (by decide)⟩

/-! ## Claim C3 -/

/-- C3 counterexample: the entity constructor accepts a first name that
contains digits (characters that are neither letters nor spaces), so
construction does not fail on the name-character rule. -/
theorem C3_counterexample_nonletter_name_accepted :
    (User.construct "1" "a@b.c" "John123" "Doe" 0 0 true).isOk = true ∧
      nameRegexTest "John123".data = false := by
  exact ⟨by decide, by decide⟩

/-- C3 amended: constructing a `User` fails before the object exists
exactly when the email fails the email regex or either name has
trimmed length below 2; the letters-and-spaces character rule is not
checked by the constructor (it is enforced only by the create/update
use cases). -/
theorem C3_construct_succeeds_iff (id email firstName lastName : String) (c up : Nat)
    (a : Bool) :
    (User.construct id email firstName lastName c up a).isOk = true ↔
      (emailRegexTest email.data = true ∧ 2 ≤ trimLen firstName ∧ 2 ≤ trimLen lastName) := by
  constructor
  · intro h
    by_cases he : emailRegexTest email.data = true
    · by_cases hf : 2 ≤ trimLen firstName
      · by_cases hl : 2 ≤ trimLen lastName
        · exact ⟨he, hf, hl⟩
        · rw [userConstruct_lastName_error _ _ _ _ _ _ _ he hf (by omega)] at h
          exact absurd h (by decide)
      · rw [userConstruct_firstName_error _ _ _ _ _ _ _ he (by omega)] at h
        exact absurd h (by decide)
    · rw [userConstruct_email_error _ _ _ _ _ _ _ (by simpa using he)] at h
      exact absurd h (by decide)
  · rintro ⟨he, hf, hl⟩
    rw [userConstruct_ok _ _ _ _ _ _ _ he hf hl]
    rfl

/-- Witness for the amended C3 at a concrete input. -/
theorem C3_construct_succeeds_iff_witness :
    (User.construct "1" "a@b.c" "Jo" "Li" 5 6 true).isOk = true :=
  (C3_construct_succeeds_iff "1" "a@b.c" "Jo" "Li" 5 6 true).mpr
    ⟨by decide, by decide, by decide⟩

/-! ## Claim C10 -/

/-- C10: `fromJSON` of an object whose `isActive` field is absent
produces an entity with `isActive = true` (the constructor default);
`fromJSON` never reads the `fullName` field; and `toJSON` output
carries the derived `fullName`. -/
theorem C10_fromJSON_defaults (d : UserJSON) (u : User) (f : Option String) :
    ((d.isActive = none ∧ User.fromJSON d = .ok u) → u.isActive = true) ∧
      User.fromJSON { d with fullName := f } = User.fromJSON d ∧
      (User.toJSON u).fullName = some (User.fullName u) := by
  refine ⟨?_, rfl, rfl⟩
  rintro ⟨hnone, hok⟩
  unfold User.fromJSON at hok
  cases hc : parseISODate d.createdAt with
  | none =>
      cases hu : parseISODate d.updatedAt with
      | none => rw [hc, hu] at hok; cases hok
      | some up => rw [hc, hu] at hok; cases hok
  | some c =>
      cases hu : parseISODate d.updatedAt with
      | none => rw [hc, hu] at hok; cases hok
      | some up =>
          rw [hc, hu, hnone] at hok
          rw [userConstruct_fields _ _ _ _ _ _ _ _ hok]
          rfl

/-- Witness for C10 at a concrete serialized object without
`isActive`. -/
theorem C10_fromJSON_defaults_witness :
    sampleActiveUser.isActive = true ∧
      User.fromJSON { sampleJSON with fullName := some "ignored" } =
        User.fromJSON sampleJSON :=
  ⟨(C10_fromJSON_defaults sampleJSON sampleActiveUser (some "ignored")).1 ⟨rfl, rfl⟩,
   (C10_fromJSON_defaults sampleJSON sampleActiveUser (some "ignored")).2.1⟩

/-! ## Use-case lemmas and claims C1, C2, C6 -/

theorem id_check_neg (id : String) (hid : trimLen id ≠ 0) :
    ¬(id = "" ∨ trimLen id = 0) := by
  rintro (he | hz)
  · rw [he] at hid
    exact hid (by decide)
  · exact hid hz

/-- C1: for every id with non-empty trim and fetched user `u`: soft
delete fails when `u` is already inactive; hard delete fails when `u`
is still active; and hard delete of an inactive user delegates
`permanentDelete` exactly once and returns its boolean result.  No
deletion transition skips the Active → Inactive → Removed order. -/
theorem C1_delete_state_machine (repo : RepoBehavior) (id : String) (u : User)
    (hid : trimLen id ≠ 0) (hget : repo.getById id = .ok (some u)) :
    (u.isActive = false →
        DeleteUserUseCase.executeSoftDelete repo id =
          .asyncError (.plain "User is already inactive") [.getById id]) ∧
      (u.isActive = true →
        DeleteUserUseCase.executeHardDelete repo id =
          .asyncError (.plain "Cannot permanently delete active user. Deactivate first.")
            [.getById id]) ∧
      (∀ b, u.isActive = false → repo.permanentDelete id = .ok b →
        DeleteUserUseCase.executeHardDelete repo id =
          .ok b [.getById id, .permanentDelete id]) := by
  refine ⟨?_, ?_, ?_⟩
  · intro hA
    unfold DeleteUserUseCase.executeSoftDelete
    rw [if_neg (id_check_neg id hid), hget]
    dsimp only
    rw [if_pos hA]
  · intro hA
    unfold DeleteUserUseCase.executeHardDelete
    rw [if_neg (id_check_neg id hid), hget]
    dsimp only
    rw [hA, if_pos rfl]
  · intro b hA hperm
    unfold DeleteUserUseCase.executeHardDelete
    rw [if_neg (id_check_neg id hid), hget]
    dsimp only
    rw [hA, if_neg (by decide), hperm]

/-- Witness for C1: all three transitions at concrete repositories. -/
theorem C1_delete_state_machine_witness :
    DeleteUserUseCase.executeSoftDelete repoInactiveUser "1" =
        .asyncError (.plain "User is already inactive") [.getById "1"] ∧
      DeleteUserUseCase.executeHardDelete repoActiveUser "1" =
        .asyncError (.plain "Cannot permanently delete active user. Deactivate first.")
          [.getById "1"] ∧
      DeleteUserUseCase.executeHardDelete repoInactiveUser "1" =
        .ok true [.getById "1", .permanentDelete "1"] :=
  ⟨(C1_delete_state_machine repoInactiveUser "1" sampleInactiveUser (by decide) rfl).1 rfl,
   (C1_delete_state_machine repoActiveUser "1" sampleActiveUser (by decide) rfl).2.1 rfl,
   (C1_delete_state_machine repoInactiveUser "1" sampleInactiveUser (by decide) rfl).2.2
     true rfl rfl⟩

/-- C2: for every valid create payload, if the email is taken `execute`
fails with the already-exists error and `create` is never invoked (the
trace is the single existence check); if the email is free, `execute`
performs exactly one existence check and one create call and returns
the created entity. -/
theorem C2_create_checks_before_create (repo : RepoBehavior) (d : CreateData)
    (hval : CreateUserUseCase.validateUserData d = .ok ()) :
    (repo.existsByEmail d.email = .ok true →
        CreateUserUseCase.execute repo d =
          .asyncError (.plain "User with this email already exists")
            [.existsByEmail d.email]) ∧
      (∀ u, repo.existsByEmail d.email = .ok false → repo.create d = .ok u →
        CreateUserUseCase.execute repo d = .ok u [.existsByEmail d.email, .create d]) := by
  constructor
  · intro hex
    unfold CreateUserUseCase.execute
    rw [hval, hex]
  · intro u hex hcr
    unfold CreateUserUseCase.execute
    rw [hval, hex]
    dsimp only
    rw [hcr]

/-- Witness for C2 at the sample payload against both repository
behaviours. -/
theorem C2_create_checks_before_create_witness :
    CreateUserUseCase.execute repoEmailTaken sampleCreateData =
        .asyncError (.plain "User with this email already exists")
          [.existsByEmail "test@example.com"] ∧
      CreateUserUseCase.execute repoCreateOk sampleCreateData =
        .ok (createdUserOf sampleCreateData)
          [.existsByEmail "test@example.com", .create sampleCreateData] :=
  ⟨(C2_create_checks_before_create repoEmailTaken sampleCreateData rfl).1 rfl,
   (C2_create_checks_before_create repoCreateOk sampleCreateData rfl).2
     (createdUserOf sampleCreateData) rfl rfl⟩

/-- C6: when `UpdateUserUseCase.execute` fetches an inactive user it
fails with the inactive error immediately after the fetch — before any
validation of the provided name fields (the outcome is the same for
every payload, valid or not) — and no repository `update` call is
made (the trace is the single `getById`). -/
theorem C6_update_inactive_precedes_validation (repo : RepoBehavior) (id : String)
    (d : UpdateData) (u : User) (hid : trimLen id ≠ 0) (hkeys : d.keyCount ≠ 0)
    (hget : repo.getById id = .ok (some u)) (hin : u.isActive = false) :
    UpdateUserUseCase.execute repo id d =
      .asyncError (.plain "Cannot update inactive user") [.getById id] := by
  have hval : UpdateUserUseCase.validateInput id d = .ok () := by
    unfold UpdateUserUseCase.validateInput
    rw [if_neg (id_check_neg id hid), if_neg hkeys]
  unfold UpdateUserUseCase.execute
  rw [hval, hget]
  dsimp only
  rw [if_pos hin]

/-- Witness for C6: an inactive user with an invalid (too short) new
first name still yields the inactive-user error after only the
fetch. -/
theorem C6_update_inactive_precedes_validation_witness :
    UpdateUserUseCase.execute repoInactiveUser "1"
        { firstName := some "A", lastName := none } =
      .asyncError (.plain "Cannot update inactive user") [.getById "1"] :=
  C6_update_inactive_precedes_validation repoInactiveUser "1"
    { firstName := some "A", lastName := none } sampleInactiveUser
    (by decide) (by decide) rfl rfl

/-! ## Claim C5 -/

/-- C5 counterexample: the empty-string search term has trimmed length
0 (below 2) yet is passed through as the empty string rather than
replaced by `undefined`, because the empty string is falsy and skips
the drop check of `validateAndSetDefaults`. -/
theorem C5_counterexample_empty_search_kept :
    trimLen "" < 2 ∧
      (ListUsersUseCase.validateAndSetDefaults
          (some { page := none, limit := none, search := some "", isActive := none })).search =
        some "" :=
  ⟨by decide, rfl⟩

/-- C5 amended: `execute` delegates exactly the normalized record;
`page` defaults to 1 and values below 1 become 1; `limit` defaults to
10, values below 1 become 10 and values above 100 become 100; a
non-empty search term with trimmed length below 2 becomes `undefined`
while the empty-string search is passed through unchanged; and the
claim's instance `{page:0, limit:500, search:"a"}` normalizes to
`{page:1, limit:100, search:undefined}`. -/
theorem C5_normalization_spec (repo : RepoBehavior) (opts : Option ListOptions)
    (o : ListOptions) :
    (ListUsersUseCase.execute repo opts).trace =
        [.getAll (ListUsersUseCase.validateAndSetDefaults opts)] ∧
      ListUsersUseCase.validateAndSetDefaults none =
        { page := 1, limit := 10, search := none, isActive := none } ∧
      (ListUsersUseCase.validateAndSetDefaults (some o)).isActive = o.isActive ∧
      (o.page = none → (ListUsersUseCase.validateAndSetDefaults (some o)).page = 1) ∧
      (∀ p, o.page = some p → p < 1 →
        (ListUsersUseCase.validateAndSetDefaults (some o)).page = 1) ∧
      (∀ p, o.page = some p → 1 ≤ p →
        (ListUsersUseCase.validateAndSetDefaults (some o)).page = p) ∧
      (o.limit = none → (ListUsersUseCase.validateAndSetDefaults (some o)).limit = 10) ∧
      (∀ l, o.limit = some l → l < 1 →
        (ListUsersUseCase.validateAndSetDefaults (some o)).limit = 10) ∧
      (∀ l, o.limit = some l → 1 ≤ l → l ≤ 100 →
        (ListUsersUseCase.validateAndSetDefaults (some o)).limit = l) ∧
      (∀ l, o.limit = some l → 100 < l →
        (ListUsersUseCase.validateAndSetDefaults (some o)).limit = 100) ∧
      (o.search = none → (ListUsersUseCase.validateAndSetDefaults (some o)).search = none) ∧
      (∀ s, o.search = some s → s ≠ "" → trimLen s < 2 →
        (ListUsersUseCase.validateAndSetDefaults (some o)).search = none) ∧
      (∀ s, o.search = some s → 2 ≤ trimLen s →
        (ListUsersUseCase.validateAndSetDefaults (some o)).search =
          some (String.mk (jsTrim s.data))) ∧
      ListUsersUseCase.validateAndSetDefaults
          (some { page := some 0, limit := some 500, search := some "a", isActive := none }) =
        { page := 1, limit := 100, search := none, isActive := none } := by
  refine ⟨?_, rfl, rfl, ?_, ?_, ?_, ?_, ?_, ?_, ?_, ?_, ?_, ?_, rfl⟩
  · unfold ListUsersUseCase.execute
    cases hg : repo.getAll (ListUsersUseCase.validateAndSetDefaults opts) with
    | error e => rfl
    | ok r => rfl
  · intro hp
    unfold ListUsersUseCase.validateAndSetDefaults
    dsimp only
    rw [hp]
    decide
  · intro p hp hlt
    unfold ListUsersUseCase.validateAndSetDefaults
    dsimp only
    rw [hp]
    dsimp only
    split_ifs <;> omega
  · intro p hp hge
    unfold ListUsersUseCase.validateAndSetDefaults
    dsimp only
    rw [hp]
    dsimp only
    split_ifs <;> omega
  · intro hl
    unfold ListUsersUseCase.validateAndSetDefaults
    dsimp only
    rw [hl]
    decide
  · intro l hl hlt
    unfold ListUsersUseCase.validateAndSetDefaults
    dsimp only
    rw [hl]
    dsimp only
    split_ifs <;> omega
  · intro l hl hge hle
    unfold ListUsersUseCase.validateAndSetDefaults
    dsimp only
    rw [hl]
    dsimp only
    split_ifs <;> omega
  · intro l hl hgt
    unfold ListUsersUseCase.validateAndSetDefaults
    dsimp only
    rw [hl]
    dsimp only
    split_ifs <;> omega
  · intro hs
    unfold ListUsersUseCase.validateAndSetDefaults
    dsimp only
    rw [hs]
  · intro s hs hne hlt
    unfold ListUsersUseCase.validateAndSetDefaults
    dsimp only
    rw [hs]
    dsimp only
    rw [if_pos ⟨hne, hlt⟩]
  · intro s hs hge
    unfold ListUsersUseCase.validateAndSetDefaults
    dsimp only
    rw [hs]
    dsimp only
    rw [if_neg]
    rintro ⟨-, hlt⟩
    omega

/-- Witness for the amended C5: the claim's own instance delegated
through `execute`. -/
theorem C5_normalization_spec_witness :
    (ListUsersUseCase.execute stubRepo
        (some { page := some 0, limit := some 500, search := some "a", isActive := none })).trace =
      [.getAll { page := 1, limit := 100, search := none, isActive := none }] :=
  (C5_normalization_spec stubRepo
      (some { page := some 0, limit := some 500, search := some "a", isActive := none })
      { page := some 0, limit := some 500, search := some "a", isActive := none }).1

/-! ## Claim C9 -/

/-- C9: `executeSearch` fails synchronously with a validation error
whenever the trimmed query is shorter than 2 characters; otherwise it
delegates to the repository's `search` with the trimmed query and a
limit that always lies in [1,100] — equal to `min limit 100` for a
positive limit and to the default 20 when no limit is given. -/
theorem C9_executeSearch_spec (repo : RepoBehavior) (q : String) (limit : Option Int) :
    (trimLen q < 2 →
        ListUsersUseCase.executeSearch repo q limit =
            .syncError (.plain "Search query is required") ∨
          ListUsersUseCase.executeSearch repo q limit =
            .syncError (.plain "Search query must be at least 2 characters long")) ∧
      (∀ us, 2 ≤ trimLen q →
        repo.searchUsers (String.mk (jsTrim q.data)) (ListUsersUseCase.searchLimitOf limit) =
          .ok us →
        ListUsersUseCase.executeSearch repo q limit =
          .ok us [.search (String.mk (jsTrim q.data)) (ListUsersUseCase.searchLimitOf limit)]) ∧
      1 ≤ ListUsersUseCase.searchLimitOf limit ∧
      ListUsersUseCase.searchLimitOf limit ≤ 100 ∧
      (limit = none → ListUsersUseCase.searchLimitOf limit = 20) ∧
      (∀ l, limit = some l → 1 ≤ l → ListUsersUseCase.searchLimitOf limit = min l 100) := by
  refine ⟨?_, ?_, ?_, ?_, ?_, ?_⟩
  · intro hlt
    unfold ListUsersUseCase.executeSearch
    by_cases h0 : q = "" ∨ trimLen q = 0
    · rw [if_pos h0]
      exact Or.inl rfl
    · rw [if_neg h0, if_pos hlt]
      exact Or.inr rfl
  · intro us hge hus
    unfold ListUsersUseCase.executeSearch
    rw [if_neg (id_check_neg q (by omega)), if_neg (by omega), hus]
  · cases limit with
    | none => decide
    | some l =>
        unfold ListUsersUseCase.searchLimitOf
        dsimp only
        split_ifs with h
        · exact le_min (by omega) (by omega)
        · omega
  · cases limit with
    | none => decide
    | some l =>
        unfold ListUsersUseCase.searchLimitOf
        dsimp only
        split_ifs with h
        · exact min_le_right l 100
        · omega
  · intro h
    rw [h]
    decide
  · intro l hl h1
    rw [hl]
    unfold ListUsersUseCase.searchLimitOf
    dsimp only
    rw [if_pos ⟨by omega, by omega⟩]

/-- Witness for C9: a two-character query with an oversized limit. -/
theorem C9_executeSearch_spec_witness :
    ListUsersUseCase.executeSearch stubRepo "Jo" (some 500) = .ok [] [.search "Jo" 100] ∧
      ListUsersUseCase.searchLimitOf (some 500) = 100 :=
  ⟨(C9_executeSearch_spec stubRepo "Jo" (some 500)).2.1 [] (by decide) rfl, rfl⟩

/-! ## Claim C7 -/

/-- C7 counterexample: the already-exists failure discovered after the
repository's existence check is surfaced as a bare `Error` with a
message — not as an instance of any typed `DomainError` kind. -/
theorem C7_counterexample_raw_error_after_read :
    CreateUserUseCase.execute repoEmailTaken sampleCreateData =
        .asyncError (.plain "User with this email already exists")
          [.existsByEmail "test@example.com"] ∧
      Thrown.isDomainError (.plain "User with this email already exists") = false :=
  ⟨rfl, rfl⟩

/-- C7 amended: failures discovered after a repository read are
surfaced as bare `Error` values carrying fixed descriptive messages,
never as `DomainError` instances; the typed `DomainError` taxonomy
with its stable codes and user messages exists but is produced only by
`DomainErrorFactory.fromHttpError`, which maps transport failures to
typed kinds. -/
theorem C7_post_read_failures_plain (repo : RepoBehavior) (id : String) (d : CreateData)
    (ud : UpdateData) (u : User) (h : HttpError) (hid : trimLen id ≠ 0) :
    (CreateUserUseCase.validateUserData d = .ok () →
        repo.existsByEmail d.email = .ok true →
        CreateUserUseCase.execute repo d =
          .asyncError (.plain "User with this email already exists")
            [.existsByEmail d.email]) ∧
      (repo.getById id = .ok none →
        DeleteUserUseCase.executeSoftDelete repo id =
            .asyncError (.plain "User not found") [.getById id] ∧
          DeleteUserUseCase.executeHardDelete repo id =
            .asyncError (.plain "User not found") [.getById id]) ∧
      (repo.getById id = .ok (some u) → u.isActive = false →
        DeleteUserUseCase.executeSoftDelete repo id =
          .asyncError (.plain "User is already inactive") [.getById id]) ∧
      (repo.getById id = .ok (some u) → u.isActive = true →
        DeleteUserUseCase.executeHardDelete repo id =
          .asyncError (.plain "Cannot permanently delete active user. Deactivate first.")
            [.getById id]) ∧
      (ud.keyCount ≠ 0 → repo.getById id = .ok none →
        UpdateUserUseCase.execute repo id ud =
          .asyncError (.plain "User not found") [.getById id]) ∧
      (h.status = some 404 →
        (DomainErrorFactory.fromHttpError h).code = "USER_NOT_FOUND" ∧
          (DomainErrorFactory.fromHttpError h).userMessage = "User not found") ∧
      (h.status = some 409 →
        (DomainErrorFactory.fromHttpError h).code = "USER_ALREADY_EXISTS" ∧
          (DomainErrorFactory.fromHttpError h).userMessage =
            "A user with this email already exists") ∧
      (h.status = some 0 →
        (DomainErrorFactory.fromHttpError h).code = "NETWORK_ERROR") ∧
      Thrown.isDomainError (.domain (DomainErrorFactory.fromHttpError h)) = true := by
  refine ⟨?_, ?_, ?_, ?_, ?_, ?_, ?_, ?_, rfl⟩
  · intro hval hex
    unfold CreateUserUseCase.execute
    rw [hval, hex]
  · intro hget
    constructor
    · unfold DeleteUserUseCase.executeSoftDelete
      rw [if_neg (id_check_neg id hid), hget]
    · unfold DeleteUserUseCase.executeHardDelete
      rw [if_neg (id_check_neg id hid), hget]
  · intro hget hA
    unfold DeleteUserUseCase.executeSoftDelete
    rw [if_neg (id_check_neg id hid), hget]
    dsimp only
    rw [if_pos hA]
  · intro hget hA
    unfold DeleteUserUseCase.executeHardDelete
    rw [if_neg (id_check_neg id hid), hget]
    dsimp only
    rw [hA, if_pos rfl]
  · intro hk hget
    have hval : UpdateUserUseCase.validateInput id ud = .ok () := by
      unfold UpdateUserUseCase.validateInput
      rw [if_neg (id_check_neg id hid), if_neg hk]
    unfold UpdateUserUseCase.execute
    rw [hval, hget]
  · intro hstat
    unfold DomainErrorFactory.fromHttpError
    rw [if_pos hstat]
    exact ⟨rfl, rfl⟩
  · intro hstat
    unfold DomainErrorFactory.fromHttpError
    rw [hstat, if_neg (by decide), if_pos rfl]
    exact ⟨rfl, rfl⟩
  · intro hstat
    unfold DomainErrorFactory.fromHttpError
    rw [hstat, if_neg (by decide), if_neg (by decide), if_neg (by decide), if_pos rfl]
    rfl

/-- Witness for the amended C7: a not-found failure is a plain error,
and the factory maps a 404 transport failure to the typed kind with
its stable code. -/
theorem C7_post_read_failures_plain_witness :
    DeleteUserUseCase.executeSoftDelete stubRepo "1" =
        .asyncError (.plain "User not found") [.getById "1"] ∧
      (DomainErrorFactory.fromHttpError
          { status := some 404, url := none, message := none, error := none }).code =
        "USER_NOT_FOUND" :=
  ⟨((C7_post_read_failures_plain stubRepo "1" sampleCreateData
        { firstName := none, lastName := none } sampleActiveUser
        { status := some 404, url := none, message := none, error := none }
        (by decide)).2.1 rfl).1,
   ((C7_post_read_failures_plain stubRepo "1" sampleCreateData
        { firstName := none, lastName := none } sampleActiveUser
        { status := some 404, url := none, message := none, error := none }
        (by decide)).2.2.2.2.2.1 rfl).1⟩

/-! ## Claim C8 -/

/-- C8 counterexample: a too-short first name passed to
`UpdateUserUseCase.execute` does not fail synchronously: the use case
first issues `getById` (the trace shows the call) and only then emits
the name-validation failure asynchronously. -/
theorem C8_counterexample_update_name_check_after_fetch :
    UpdateUserUseCase.execute repoActiveUser "1"
        { firstName := some "A", lastName := none } =
        .asyncError (.plain "First name must be at least 2 characters long") [.getById "1"] ∧
      trimLen "A" < 2 ∧
      (UpdateUserUseCase.execute repoActiveUser "1"
          { firstName := some "A", lastName := none }).isSync = false :=
  ⟨rfl, by decide, rfl⟩

/-- C8 amended: the create use case raises all of its argument
validation (missing fields, malformed email, too-short or non-letter
names) synchronously before any repository call, and the update and
get use cases raise their empty-id / empty-payload checks
synchronously; but the update use case validates provided name fields
only after fetching the user and checking it is active, so a bad name
surfaces asynchronously after exactly the `getById` call. -/
theorem C8_sync_validation_spec (repo : RepoBehavior) (id : String) (d : CreateData)
    (ud : UpdateData) (u : User) (e : Thrown) :
    (CreateUserUseCase.validateUserData d = .error e →
        CreateUserUseCase.execute repo d = .syncError e) ∧
      ((id = "" ∨ trimLen id = 0) →
        UpdateUserUseCase.execute repo id ud = .syncError (.plain "User ID is required")) ∧
      (trimLen id ≠ 0 → ud.keyCount = 0 →
        UpdateUserUseCase.execute repo id ud =
          .syncError (.plain "Update data is required")) ∧
      ((id = "" ∨ trimLen id = 0) →
        GetUserUseCase.execute repo id = .syncError (.plain "User ID is required")) ∧
      (trimLen id ≠ 0 → ud.keyCount ≠ 0 → repo.getById id = .ok (some u) →
        u.isActive = true → UpdateUserUseCase.validateUpdateData ud = .error e →
        UpdateUserUseCase.execute repo id ud = .asyncError e [.getById id]) := by
  refine ⟨?_, ?_, ?_, ?_, ?_⟩
  · intro hval
    unfold CreateUserUseCase.execute
    rw [hval]
  · intro h0
    unfold UpdateUserUseCase.execute UpdateUserUseCase.validateInput
    rw [if_pos h0]
  · intro hid hk
    unfold UpdateUserUseCase.execute UpdateUserUseCase.validateInput
    rw [if_neg (id_check_neg id hid), if_pos hk]
  · intro h0
    unfold GetUserUseCase.execute
    rw [if_pos h0]
  · intro hid hk hget hact hvd
    have hval : UpdateUserUseCase.validateInput id ud = .ok () := by
      unfold UpdateUserUseCase.validateInput
      rw [if_neg (id_check_neg id hid), if_neg hk]
    unfold UpdateUserUseCase.execute
    rw [hval, hget]
    dsimp only
    rw [hact, if_neg (by decide), hvd]

/-- Witness for the amended C8: a malformed email fails synchronously
in create; an empty id fails synchronously in update; a too-short name
in update fails asynchronously after the fetch. -/
theorem C8_sync_validation_spec_witness :
    CreateUserUseCase.execute stubRepo
        { email := "bad", firstName := "Jo", lastName := "Li" } =
        .syncError (.plain "Invalid email format") ∧
      UpdateUserUseCase.execute stubRepo "" { firstName := some "Jo", lastName := none } =
        .syncError (.plain "User ID is required") ∧
      UpdateUserUseCase.execute repoActiveUser "1"
          { firstName := some "A", lastName := none } =
        .asyncError (.plain "First name must be at least 2 characters long") [.getById "1"] :=
  ⟨(C8_sync_validation_spec stubRepo ""
      { email := "bad", firstName := "Jo", lastName := "Li" }
      { firstName := some "Jo", lastName := none } sampleActiveUser
      (.plain "Invalid email format")).1 rfl,
   (C8_sync_validation_spec stubRepo ""
      { email := "bad", firstName := "Jo", lastName := "Li" }
      { firstName := some "Jo", lastName := none } sampleActiveUser
      (.plain "Invalid email format")).2.1 (Or.inl rfl),
   (C8_sync_validation_spec repoActiveUser "1"
      { email := "bad", firstName := "Jo", lastName := "Li" }
      { firstName := some "A", lastName := none } sampleActiveUser
      (.plain "First name must be at least 2 characters long")).2.2.2.2
     (by decide) (by decide) rfl rfl rfl⟩

end CleanAngular
